import Mathlib

/-!
Shallow embedding of the core logic of the `vsc-ext-debugterminal` editor
extension (`src/extension.ts`): the parent-directory derivation
(`getParentDirectoryUri`), the target-directory resolver
(`determineTargetDirectory`), the terminal acquisition chain
(`openJsDebugTerminalWithCwd`), the npm-script line scanner backing the
CodeLens provider, the cursor-based script lookup
(`runNpmScriptInDebugTerminal`), and the native-hover suppression procedure
(`setupNpmScriptHoverControl`).

Host (VS Code) services are modelled as explicit data: a `Host` record for
the command registry / extension activation / terminal state, and a
`ResolverEnv` record for the stat capability, active editor and workspace
folders.  Side effects are modelled as explicit effect traces.
-/

namespace DebugTerminal

/-- A resource locator, as the subset of `vscode.Uri` the extension actually
touches: a scheme and a path.  (Authority/query/fragment components are never
read or written by the extension's code and are not modelled.) -/
structure Uri where
  scheme : String
  path : String
  deriving DecidableEq, Repr

/-- `uri.fsPath` for the locators the extension passes around.  The code only
forwards `fsPath` opaquely to host calls, so the platform-specific rendering
is modelled as the POSIX path itself. -/
def Uri.fsPath (u : Uri) : String := u.path

/-- JS regex `\s` on the characters that can occur inside a single line
(the texts scanned are already split on newlines). -/
def isSpaceChar (c : Char) : Bool :=
  c = ' ' || c = '\t' || c = '\n' || c = '\r' || c = '\x0b' || c = '\x0c' || c = '\xa0'

/-- The path separator test of the parent-path regexes. -/
def isSlashChar (c : Char) : Bool := c = '/'

/-- The `[^\/]` character class of the parent-path regexes. -/
def notSlashChar (c : Char) : Bool := !isSlashChar c

/-- `uri.path.replace(/\/+$/, '')` from `getParentDirectoryUri`: remove all
trailing path separators. -/
def stripTrailingSlashes (p : String) : String :=
  String.mk ((p.data.reverse.dropWhile isSlashChar).reverse)

/-- `normalizedPath.replace(/\/[^\/]+$/, '')` from `getParentDirectoryUri`:
if the string ends in a separator followed by one or more non-separator
characters, remove that suffix; otherwise leave the string unchanged. -/
def removeTrailingSegment (p : String) : String :=
  if p.data.reverse.takeWhile notSlashChar ≠ [] ∧
      (p.data.reverse.dropWhile notSlashChar).head? = some '/' then
    String.mk (p.data.reverse.dropWhile notSlashChar).tail.reverse
  else p

/-- The non-`file`-scheme branch of `getParentDirectoryUri`
(`extension.ts` lines 236-242): strip trailing separators, drop one trailing
`/segment`, and default to `"/"` when the result is empty. -/
def genericParentPath (p : String) : String :=
  if removeTrailingSegment (stripTrailingSlashes p) = "" then "/"
  else removeTrailingSegment (stripTrailingSlashes p)

/-- Node's `path.posix.dirname`, used by the `file`-scheme branch of
`getParentDirectoryUri`: scan from the end past trailing separators and the
last segment; special cases for root and for no separator at index ≥ 1. -/
def posixDirname (p : String) : String :=
  let cs := p.data
  if cs.isEmpty then "." else
  let hasRoot := cs.head? = some '/'
  let afterTrail := cs.reverse.dropWhile isSlashChar
  let afterSeg := afterTrail.dropWhile notSlashChar
  if afterSeg.isEmpty || afterSeg.length - 1 = 0 then
    (if hasRoot then "/" else ".")
  else if hasRoot ∧ afterSeg.length - 1 = 1 then "//"
  else String.mk (cs.take (afterSeg.length - 1))

/-- `getParentDirectoryUri` (`extension.ts` lines 229-246): `file` URIs go
through `path.dirname` on `fsPath` and are rebuilt with `vscode.Uri.file`;
every other scheme keeps its scheme (`uri.with`) and takes the generic
string-manipulation parent path. -/
def getParentDirectoryUri (uri : Uri) : Uri :=
  if uri.scheme = "file" then
    { scheme := "file", path := posixDirname uri.fsPath }
  else
    { scheme := uri.scheme, path := genericParentPath uri.path }

/-- The parent-path derivation for non-`file` schemes exactly as the claim
words it: first remove all trailing separators, then remove exactly one
trailing path segment (and its separator), and yield the root segment `"/"`
when no segment remains. -/
def claimParentPath (p : String) : String :=
  if ((stripTrailingSlashes p).data.reverse.dropWhile notSlashChar).tail.isEmpty then "/"
  else String.mk ((stripTrailingSlashes p).data.reverse.dropWhile notSlashChar).tail.reverse

/-- The amended parent-path description: as `claimParentPath`, except that a
normalized path containing no separator at all is returned unchanged when
nonempty (only the empty normalized path defaults to `"/"`). -/
def amendedParentPath (p : String) : String :=
  if (stripTrailingSlashes p).data.contains '/' then claimParentPath p
  else if (stripTrailingSlashes p).data.isEmpty then "/"
  else stripTrailingSlashes p

/-! ## Target-directory resolver (`determineTargetDirectory`) -/

/-- The slice of `vscode.FileStat` the resolver reads: the `type` bit field. -/
structure FileStat where
  ftype : Nat
  deriving DecidableEq, Repr

/-- `vscode.FileType.Directory`. -/
def FileTypeDirectory : Nat := 2

/-- The host services `determineTargetDirectory` consults: the
`workspace.fs.stat` capability (which may throw), the active text editor's
document URI, and the open workspace folders in host order. -/
structure ResolverEnv where
  statResult : Uri → Except String FileStat
  activeTextEditorUri : Option Uri
  workspaceFolders : List Uri

/-- The message of the error thrown when no directory can be determined. -/
def noTargetErrorMessage : String :=
  "No workspace folder or active file found. Please open a folder or file first."

/-- `determineTargetDirectory` (`extension.ts` lines 433-470): a provided
context resource is stat-ed (a stat failure propagates) and returned
unchanged when the `Directory` bit is set, else replaced by its parent; with
no context the active editor document's parent is used; failing that, the
first workspace folder; failing that, the no-target error is thrown. -/
def determineTargetDirectory (env : ResolverEnv) (contextResource : Option Uri) :
    Except String Uri :=
  match contextResource with
  | some uri =>
    match env.statResult uri with
    | .error e => .error e
    | .ok st =>
      if st.ftype &&& FileTypeDirectory ≠ 0 then .ok uri
      else .ok (getParentDirectoryUri uri)
  | none =>
    match env.activeTextEditorUri with
    | some docUri => .ok (getParentDirectoryUri docUri)
    | none =>
      match env.workspaceFolders with
      | [] => .error noTargetErrorMessage
      | w :: _ => .ok w

/-! ## Terminal acquisition chain (`openJsDebugTerminalWithCwd`) -/

/-- The command id of VS Code's built-in JS debug-terminal creator. -/
def officialJsDebugCommand : String := "extension.js-debug.createDebuggerTerminal"

/-- The command id used by tier 2 to create a terminal from a named profile. -/
def newWithProfileCommand : String := "workbench.action.terminal.newWithProfile"

/-- The command opportunistically invoked by the activation pre-step. -/
def showProfilesCommand : String := "workbench.action.terminal.showProfiles"

/-- Name given to the tier-3 fallback terminal. -/
def fallbackTerminalName : String := "JavaScript Debug Terminal (Fallback)"

/-- The informational notice shown when the fallback terminal is used. -/
def fallbackInfoMessage : String :=
  "Opened regular terminal (JavaScript Debug features not available)"

/-- The `cwd` argument shape handed to `createTerminal`: the extension passes
either nothing, a `vscode.Uri` (tier-3 fallback), or an `fsPath` string
(plain-terminal branch of `runNpmScriptByName`). -/
inductive CwdArg where
  | noCwd
  | uri (u : Uri)
  | fsPath (p : String)
  deriving DecidableEq, Repr

/-- An observable host side effect of the extension's handlers. -/
inductive Effect where
  | activatedExtension
  | executedCommand (cmd : String) (profileName : Option String) (cwd : Option String)
  | createdTerminal (name : String) (cwd : CwdArg)
  | terminalShown
  | sentText (text : String)
  | showedInfo (msg : String)
  deriving DecidableEq, Repr

/-- The host state the acquisition chain consults: which commands the
registry lists, which `executeCommand` invocations complete without raising,
whether the JS debug extension is present/active and whether its activation
succeeds, and which terminal (if any) is the active one afterwards. -/
structure Host where
  availableCommands : List String
  execSucceeds : String → Bool
  extensionPresent : Bool
  extensionActive : Bool
  activateSucceeds : Bool
  activeTerminal : Option String

/-- `vscode.commands.executeCommand`: on success the command runs (one
effect); on failure it raises, which the caller's `try` converts into a
fall-through (`none`). -/
def execCommandEffects (h : Host) (cmd : String) (profileName : Option String)
    (cwd : Option String) : Option (List Effect) :=
  if h.execSucceeds cmd then some [.executedCommand cmd profileName cwd] else none

/-- The activation pre-step (`extension.ts` lines 121-147): activate the JS
debug extension if present but inactive (an activation failure is caught by
the outer `try` and skips the rest of the pre-step), then opportunistically
invoke the show-profiles command, ignoring its failure.  All failures are
swallowed. -/
def preStepEffects (h : Host) : List Effect :=
  let showProfiles := (execCommandEffects h showProfilesCommand none none).getD []
  if h.extensionPresent && !h.extensionActive then
    if h.activateSucceeds then .activatedExtension :: showProfiles else []
  else showProfiles

/-- Tier 1 (`extension.ts` lines 151-173): invoke the official JS debug
command only if the registry lists it; a raised error is caught and falls
through. -/
def tier1Effects (h : Host) (cwd : Option String) : Option (List Effect) :=
  if h.availableCommands.contains officialJsDebugCommand then
    execCommandEffects h officialJsDebugCommand none cwd
  else none

/-- Tier 2 (`extension.ts` lines 177-190): create a terminal with the
"JavaScript Debug Terminal" profile; a raised error is caught and falls
through. -/
def tier2Effects (h : Host) (cwd : Option String) : Option (List Effect) :=
  execCommandEffects h newWithProfileCommand (some "JavaScript Debug Terminal") cwd

/-- Tier 3 (`extension.ts` lines 196-214): unconditionally create a plain
terminal named as a fallback, show it, send the command text if one was
supplied, and show the informational notice. -/
def tier3Effects (cwdUri : Option Uri) (command : Option String) : List Effect :=
  [.createdTerminal fallbackTerminalName
      (match cwdUri with | some u => .uri u | none => .noCwd),
   .terminalShown]
  ++ (match command with | some c => [.sentText c] | none => [])
  ++ [.showedInfo fallbackInfoMessage]

/-- Which of the three completion paths ended the acquisition. -/
inductive TierOutcome where
  | officialCommand
  | profileCommand
  | fallbackTerminal
  deriving DecidableEq, Repr

/-- `openJsDebugTerminalWithCwd` (`extension.ts` lines 115-215): run the
pre-step, then try tier 1, tier 2 and tier 3 in order, the first success
ending the procedure.  Raised host errors in tiers 1-2 are caught (modelled
by the tiers returning `none`); the function itself is total. -/
def openJsDebugTerminalWithCwd (h : Host) (cwdUri : Option Uri)
    (command : Option String) : TierOutcome × List Effect :=
  let pre := preStepEffects h
  let cwd := cwdUri.map Uri.fsPath
  match tier1Effects h cwd with
  | some es => (.officialCommand, pre ++ es)
  | none =>
    match tier2Effects h cwd with
    | some es => (.profileCommand, pre ++ es)
    | none => (.fallbackTerminal, pre ++ tier3Effects cwdUri command)

/-- Classifies an effect as the completion of one of the three tiers. -/
def completionKind : Effect → Option TierOutcome
  | .executedCommand cmd _ _ =>
    if cmd = officialJsDebugCommand then some .officialCommand
    else if cmd = newWithProfileCommand then some .profileCommand
    else none
  | .createdTerminal _ _ => some .fallbackTerminal
  | _ => none

/-- The texts submitted to terminals in a trace, in order. -/
def sentTexts (tr : List Effect) : List String :=
  tr.filterMap fun e => match e with | .sentText t => some t | _ => none

/-- The informational messages surfaced in a trace, in order. -/
def infoMessages (tr : List Effect) : List String :=
  tr.filterMap fun e => match e with | .showedInfo m => some m | _ => none

/-- The command ids successfully executed in a trace, in order. -/
def executedCommands (tr : List Effect) : List String :=
  tr.filterMap fun e => match e with | .executedCommand c _ _ => some c | _ => none

/-- The `openJsDebugTerminalHere.runNpmScriptByName` handler
(`extension.ts` lines 362-406): derive the package directory from the
document URI; in debug mode run the acquisition chain (no command) and then
send `npm run <name>` to the active terminal if there is one; otherwise
create a plain terminal named `npm: <name>` in the package directory, show
it, and send the same command. -/
def runNpmScriptByName (h : Host) (documentUri : Uri) (scriptName : String)
    (_scriptCommand : String) (useDebugTerminal : Bool) : List Effect :=
  let packageDir := getParentDirectoryUri documentUri
  if useDebugTerminal then
    (openJsDebugTerminalWithCwd h (some packageDir) none).2
    ++ (match h.activeTerminal with
        | some _ => [.sentText ("npm run " ++ scriptName)]
        | none => [])
  else
    [.createdTerminal ("npm: " ++ scriptName) (.fsPath packageDir.fsPath),
     .terminalShown,
     .sentText ("npm run " ++ scriptName)]

/-! ## Native-hover suppression (`setupNpmScriptHoverControl`) -/

/-- The two configuration values `applyNpmScriptHoverSetting` touches: the
extension's own option (read with default `false`) and the host-owned
`npm.scriptHover` setting (read with no default, so possibly unset). -/
structure HoverConfig where
  disableNativeNpmScriptHover : Option Bool
  npmScriptHover : Option Bool
  deriving DecidableEq, Repr

/-- `config.get<boolean>('disableNativeNpmScriptHover', false)`. -/
def getDisableNativeHover (cfg : HoverConfig) : Bool :=
  cfg.disableNativeNpmScriptHover.getD false

/-- `applyNpmScriptHoverSetting` (`extension.ts` lines 265-279): when the
extension option is true and `npm.scriptHover` is not already `false`
(strict comparison, so unset or `true` both count), write `false` to it;
otherwise do nothing.  Returns the updated configuration and whether a
write was performed. -/
def applyNpmScriptHoverSetting (cfg : HoverConfig) : HoverConfig × Bool :=
  if getDisableNativeHover cfg then
    if cfg.npmScriptHover ≠ some false then
      ({ cfg with npmScriptHover := some false }, true)
    else (cfg, false)
  else (cfg, false)

/-! ## Script line scanner (`NpmScriptCodeLensProvider.provideCodeLenses`) -/

/-- JS `text.split(sep)` on a character separator. -/
def splitOnChar (sep : Char) : List Char → List (List Char)
  | [] => [[]]
  | c :: rest =>
    let r := splitOnChar sep rest
    if c = sep then [] :: r
    else
      match r with
      | h :: t => (c :: h) :: t
      | [] => [[c]]

/-- `path.basename` as used on document file names (POSIX separators). -/
def pathBasename (p : String) : String :=
  String.mk ((splitOnChar '/' p.data).getLastD [])

/-- Matches a list against a literal character sequence, returning the
remainder on success. -/
def dropLiteral : List Char → List Char → Option (List Char)
  | [], l => some l
  | _ :: _, [] => none
  | p :: ps, c :: cs => if c = p then dropLiteral ps cs else none

/-- The section-entry regex `^\s*"scripts"\s*:\s*\{` of the CodeLens scan. -/
def matchScriptsHeader (l : List Char) : Bool :=
  match dropLiteral "\"scripts\"".data (l.dropWhile isSpaceChar) with
  | some l2 =>
    match l2.dropWhile isSpaceChar with
    | ':' :: l3 =>
      match l3.dropWhile isSpaceChar with
      | '{' :: _ => true
      | _ => false
    | _ => false
  | none => false

/-- The section-exit regex `^\s*\}` of the CodeLens scan. -/
def matchCloseBrace (l : List Char) : Bool :=
  match l.dropWhile isSpaceChar with
  | '}' :: _ => true
  | _ => false

/-- The script-entry regex `^\s*"([^"]+)"\s*:\s*"([^"]+)"`, returning the two
captures (script name and command). -/
def matchScriptEntry (l : List Char) : Option (String × String) :=
  match l.dropWhile isSpaceChar with
  | '"' :: r =>
    let name := r.takeWhile (fun c => c ≠ '"')
    if name.isEmpty then none else
    match r.dropWhile (fun c => c ≠ '"') with
    | '"' :: r2 =>
      match r2.dropWhile isSpaceChar with
      | ':' :: r3 =>
        match r3.dropWhile isSpaceChar with
        | '"' :: r4 =>
          let cmd := r4.takeWhile (fun c => c ≠ '"')
          if cmd.isEmpty then none else
          match r4.dropWhile (fun c => c ≠ '"') with
          | '"' :: _ => some (String.mk name, String.mk cmd)
          | _ => none
        | _ => none
      | _ => none
    | _ => none
  | _ => none

/-- One script entry found by the line scan: the two captured strings and the
line it sits on (`startLine = endLine` in the source's ranges). -/
structure ScriptDeclaration where
  name : String
  command : String
  line : Nat
  deriving DecidableEq, Repr

/-- The line loop of `provideCodeLenses` (`extension.ts` lines 38-86):
a scripts-header line enters the section, a close-brace line inside it
exits, and every script-shaped line inside it yields a declaration. -/
def scanLoop : List (List Char) → Nat → Bool → List ScriptDeclaration
  | [], _, _ => []
  | l :: ls, lineNum, inSection =>
    if matchScriptsHeader l then scanLoop ls (lineNum + 1) true
    else if inSection && matchCloseBrace l then scanLoop ls (lineNum + 1) false
    else if inSection then
      match matchScriptEntry l with
      | some (name, cmd) => ⟨name, cmd, lineNum⟩ :: scanLoop ls (lineNum + 1) true
      | none => scanLoop ls (lineNum + 1) true
    else scanLoop ls (lineNum + 1) false

/-- The line-oriented scan over the full document text. -/
def scanScriptLines (text : String) : List ScriptDeclaration :=
  scanLoop (splitOnChar '\n' text.data) 0 false

/-! ### JSON model of `JSON.parse`, used only as the structural gate -/

/-- A parsed JSON value.  Numbers keep their verbatim character run: the
extension never reads one. -/
inductive Json where
  | null
  | bool (b : Bool)
  | num (s : String)
  | str (s : String)
  | arr (elems : List Json)
  | obj (fields : List (String × Json))

/-- JSON insignificant whitespace. -/
def isJsonWs (c : Char) : Bool := c = ' ' || c = '\t' || c = '\n' || c = '\r'

/-- Skip JSON whitespace. -/
def skipJsonWs (cs : List Char) : List Char := cs.dropWhile isJsonWs

/-- Hexadecimal digit value. -/
def hexVal (c : Char) : Option Nat :=
  if '0' ≤ c ∧ c ≤ '9' then some (c.toNat - '0'.toNat)
  else if 'a' ≤ c ∧ c ≤ 'f' then some (c.toNat - 'a'.toNat + 10)
  else if 'A' ≤ c ∧ c ≤ 'F' then some (c.toNat - 'A'.toNat + 10)
  else none

/-- Parse the body of a JSON string (the opening quote already consumed),
handling the JSON escape sequences and rejecting raw control characters.
Fuelled; each step consumes at least one character, so fuel = length + 1
always suffices. -/
def parseStringBody : Nat → List Char → Option (List Char × List Char)
  | 0, _ => none
  | _ + 1, [] => none
  | fuel + 1, c :: rest =>
    if c = '"' then some ([], rest)
    else if c = '\\' then
      match rest with
      | [] => none
      | e :: rest2 =>
        if e = 'u' then
          match rest2 with
          | h1 :: h2 :: h3 :: h4 :: rest3 =>
            match hexVal h1, hexVal h2, hexVal h3, hexVal h4 with
            | some a, some b, some c2, some d =>
              let n := ((a * 16 + b) * 16 + c2) * 16 + d
              match parseStringBody fuel rest3 with
              | some (s, r) => some (Char.ofNat n :: s, r)
              | none => none
            | _, _, _, _ => none
          | _ => none
        else
          match (match e with
                 | '"' => some '"'
                 | '\\' => some '\\'
                 | '/' => some '/'
                 | 'b' => some (Char.ofNat 8)
                 | 'f' => some (Char.ofNat 12)
                 | 'n' => some '\n'
                 | 'r' => some '\r'
                 | 't' => some '\t'
                 | _ => none) with
          | some ec =>
            match parseStringBody fuel rest2 with
            | some (s, r) => some (ec :: s, r)
            | none => none
          | none => none
    else if c.toNat < 32 then none
    else
      match parseStringBody fuel rest with
      | some (s, r) => some (c :: s, r)
      | none => none

/-- One or more decimal digits. -/
def parseDigits (cs : List Char) : Option (List Char × List Char) :=
  let ds := cs.takeWhile Char.isDigit
  if ds.isEmpty then none else some (ds, cs.dropWhile Char.isDigit)

/-- Optional JSON fraction part. -/
def parseFracPart (cs : List Char) : Option (List Char × List Char) :=
  match cs with
  | '.' :: t =>
    match parseDigits t with
    | some (ds, r) => some ('.' :: ds, r)
    | none => none
  | _ => some ([], cs)

/-- Optional JSON exponent part. -/
def parseExpPart (cs : List Char) : Option (List Char × List Char) :=
  match cs with
  | c :: t =>
    if c = 'e' || c = 'E' then
      let (sgn, t2) :=
        match t with
        | s :: t3 => if s = '+' || s = '-' then ([s], t3) else (([] : List Char), t)
        | [] => ([], t)
      match parseDigits t2 with
      | some (ds, r) => some (c :: (sgn ++ ds), r)
      | none => none
    else some ([], cs)
  | [] => some ([], cs)

/-- The JSON number grammar `-?(0|[1-9][0-9]*)(\.[0-9]+)?([eE][+-]?[0-9]+)?`. -/
def parseNumberChars (cs : List Char) : Option (List Char × List Char) :=
  let (neg, cs1) :=
    match cs with
    | '-' :: t => (['-'], t)
    | _ => (([] : List Char), cs)
  match cs1 with
  | c :: t =>
    if c = '0' then
      match parseFracPart t with
      | some (f, r1) =>
        match parseExpPart r1 with
        | some (e, r2) => some (neg ++ [c] ++ f ++ e, r2)
        | none => none
      | none => none
    else if c.isDigit then
      let ds := t.takeWhile Char.isDigit
      let r0 := t.dropWhile Char.isDigit
      match parseFracPart r0 with
      | some (f, r1) =>
        match parseExpPart r1 with
        | some (e, r2) => some (neg ++ [c] ++ ds ++ f ++ e, r2)
        | none => none
      | none => none
    else none
  | [] => none

mutual

/-- Fuelled recursive-descent model of `JSON.parse` for one value. -/
def parseValue : Nat → List Char → Option (Json × List Char)
  | 0, _ => none
  | fuel + 1, cs0 =>
    let cs := skipJsonWs cs0
    match cs with
    | '{' :: rest => parseObjBody fuel (skipJsonWs rest)
    | '[' :: rest => parseArrBody fuel (skipJsonWs rest)
    | '"' :: rest =>
      match parseStringBody (rest.length + 1) rest with
      | some (s, r) => some (.str (String.mk s), r)
      | none => none
    | 't' :: 'r' :: 'u' :: 'e' :: r => some (.bool true, r)
    | 'f' :: 'a' :: 'l' :: 's' :: 'e' :: r => some (.bool false, r)
    | 'n' :: 'u' :: 'l' :: 'l' :: r => some (.null, r)
    | _ =>
      match parseNumberChars cs with
      | some (ds, r) => some (.num (String.mk ds), r)
      | none => none

/-- Object body, positioned just after `{` and leading whitespace. -/
def parseObjBody : Nat → List Char → Option (Json × List Char)
  | 0, _ => none
  | fuel + 1, cs =>
    match cs with
    | '}' :: r => some (.obj [], r)
    | _ => parseObjFields fuel cs []

/-- One or more `"key": value` members, accumulating in source order. -/
def parseObjFields : Nat → List Char → List (String × Json) →
    Option (Json × List Char)
  | 0, _, _ => none
  | fuel + 1, cs, acc =>
    match cs with
    | '"' :: rest =>
      match parseStringBody (rest.length + 1) rest with
      | some (k, r1) =>
        match skipJsonWs r1 with
        | ':' :: r2 =>
          match parseValue fuel r2 with
          | some (v, r3) =>
            match skipJsonWs r3 with
            | ',' :: r4 => parseObjFields fuel (skipJsonWs r4) (acc ++ [(String.mk k, v)])
            | '}' :: r4 => some (.obj (acc ++ [(String.mk k, v)]), r4)
            | _ => none
          | none => none
        | _ => none
      | none => none
    | _ => none

/-- Array body, positioned just after `[` and leading whitespace. -/
def parseArrBody : Nat → List Char → Option (Json × List Char)
  | 0, _ => none
  | fuel + 1, cs =>
    match cs with
    | ']' :: r => some (.arr [], r)
    | _ => parseArrElems fuel cs []

/-- One or more array elements, accumulating in source order. -/
def parseArrElems : Nat → List Char → List Json → Option (Json × List Char)
  | 0, _, _ => none
  | fuel + 1, cs, acc =>
    match parseValue fuel cs with
    | some (v, r) =>
      match skipJsonWs r with
      | ',' :: r2 => parseArrElems fuel r2 (acc ++ [v])
      | ']' :: r2 => some (.arr (acc ++ [v]), r2)
      | _ => none
    | none => none

end

/-- `JSON.parse` on a whole document: one value plus trailing whitespace.
The fuel budget `4 * (length + 1)` always suffices: every fuel decrement is
one entry into one of the five mutual parsers, and between two consumed
characters at most three entries occur (the deepest chain is
value → array-body → array-elements → value, spending 3 fuel per `[`;
object nesting spends 3 fuel per at least 4 consumed characters, and
failing branches spend at most 2 further entries before returning), so a
successful parse of `n` characters uses at most `3n + 3 < 4(n + 1)` fuel. -/
def parseJson (text : String) : Option Json :=
  match parseValue (4 * (text.data.length + 1)) text.data with
  | some (j, rest) => if (skipJsonWs rest).isEmpty then some j else none
  | none => none

/-- JS property access `obj[key]` on a parse result (later duplicate keys
shadow earlier ones, as in `JSON.parse`); `none` for non-objects. -/
def jsonLookup (j : Json) (key : String) : Option Json :=
  match j with
  | .obj fields => (fields.reverse.find? (fun f => f.1 == key)).map (·.2)
  | _ => none

/-- The gate `!packageJson.scripts || typeof packageJson.scripts !== 'object'`:
passes exactly for objects and arrays (`null` is falsy, primitives are not of
object type). -/
def isTruthyObject : Json → Bool
  | .obj _ => true
  | .arr _ => true
  | _ => false

/-- The declaration-extraction core of `provideCodeLenses`
(`extension.ts` lines 24-92): parse the document, require a truthy
object-typed `scripts` property, then line-scan; any parse failure or a
missing/malformed `scripts` section yields the empty list. -/
def scanDeclarations (text : String) : List ScriptDeclaration :=
  match parseJson text with
  | none => []
  | some pkg =>
    match jsonLookup pkg "scripts" with
    | some v => if isTruthyObject v then scanScriptLines text else []
    | none => []

/-- One CodeLens produced by the provider: its anchor line, title, command id
and the arguments passed to `runNpmScriptByName`. -/
structure CodeLensCmd where
  line : Nat
  title : String
  commandId : String
  argScriptName : String
  argScriptCommand : String
  argUseDebugTerminal : Bool
  deriving DecidableEq, Repr

/-- `provideCodeLenses` (`extension.ts` lines 17-93): only `package.json`
documents are processed; each declaration yields a "Run in Terminal" lens and
a "Debug Script" lens, in that order. -/
def provideCodeLenses (fileName : String) (text : String) : List CodeLensCmd :=
  if pathBasename fileName ≠ "package.json" then []
  else
    (scanDeclarations text).foldr
      (fun d acc =>
        ⟨d.line, "▶ Run in Terminal", "openJsDebugTerminalHere.runNpmScriptByName",
          d.name, d.command, false⟩ ::
        ⟨d.line, "$(debug-alt) Debug Script", "openJsDebugTerminalHere.runNpmScriptByName",
          d.name, d.command, true⟩ :: acc)
      []

/-! ## Cursor-based script lookup (`runNpmScriptInDebugTerminal`) -/

/-- The two failures of the cursor-based lookup. -/
inductive ScriptRunError where
  | notAScriptLine
  | notInScriptsSection
  deriving DecidableEq, Repr

/-- JS `\w`. -/
def isWordChar (c : Char) : Bool := c.isAlphanum || c = '_'

/-- An attempt to match the section-heuristic regex `"(\w+)"\s*:\s*\{` at the
head of `l`, returning the captured key and the remainder after the `{`. -/
def matchSectionHeaderAt (l : List Char) : Option (String × List Char) :=
  match l with
  | '"' :: r =>
    let w := r.takeWhile isWordChar
    if w.isEmpty then none else
    match r.dropWhile isWordChar with
    | '"' :: r2 =>
      match r2.dropWhile isSpaceChar with
      | ':' :: r3 =>
        match r3.dropWhile isSpaceChar with
        | '{' :: rest => some (String.mk w, rest)
        | _ => none
      | _ => none
    | _ => none
  | _ => none

/-- The leftmost-match semantics of
`textBeforeCursor.match(/"(\w+)"\s*:\s*\{[^}]*$/)`: the first position where
the header matches and no `}` follows before the end wins. -/
def findSectionKey : List Char → Option String
  | [] => none
  | c :: cs =>
    match matchSectionHeaderAt (c :: cs) with
    | some (k, rest) =>
      if rest.contains '}' then findSectionKey cs else some k
    | none => findSectionKey cs

/-- The candidate key at offset `i` of `before`, accepted only when its
opening brace is not closed again before the end. -/
def headerKeyAt (before : List Char) (i : Nat) : Option String :=
  match matchSectionHeaderAt (before.drop i) with
  | some (k, rest) => if rest.contains '}' then none else some k
  | none => none

/-- Independent description of the regex result: the key at the smallest
offset that is an unclosed mapping opener (the outermost unclosed one). -/
def firstUnclosedKey (before : List Char) : Option String :=
  (List.range before.length).findSome? (headerKeyAt before)

/-- The claim-side notion: the key at the largest offset that is an unclosed
mapping opener — the nearest enclosing unclosed mapping found by scanning
backward from the cursor. -/
def nearestUnclosedKey (before : List Char) : Option String :=
  (List.range before.length).reverse.findSome? (headerKeyAt before)

/-- `document.lineAt(n).text` on a document split at newlines. -/
def lineTextAt (text : String) (n : Nat) : List Char :=
  (splitOnChar '\n' text.data).getD n []

/-- `document.offsetAt(new Position(line, col))`: the lengths of the
preceding lines, one separator each, plus the column. -/
def offsetOfPos (text : String) (line col : Nat) : Nat :=
  ((splitOnChar '\n' text.data).take line).foldl (fun a l => a + l.length + 1) 0 + col

/-- The script-extraction core of `runNpmScriptInDebugTerminal`
(`extension.ts` lines 492-520), after the active-editor and `package.json`
gates: match the cursor line against the script-entry shape (else the
not-a-script-line error), then require the leftmost unclosed mapping opener
before the cursor offset to be `"scripts"` (else the not-in-scripts-section
error). -/
def scriptAtCursor (text : String) (line col : Nat) :
    Except ScriptRunError (String × String) :=
  match matchScriptEntry (lineTextAt text line) with
  | none => .error .notAScriptLine
  | some (name, cmd) =>
    let before := text.data.take (offsetOfPos text line col)
    match findSectionKey before with
    | some k => if k = "scripts" then .ok (name, cmd) else .error .notInScriptsSection
    | none => .error .notInScriptsSection

/-! ## Concrete instances used by witnesses and counterexamples -/

/-- The document text of §8's scanner example, laid out one key per line. -/
def exampleDocText : String :=
  "\x7b\n\"scripts\": \x7b\n\"build\": \"tsc -p .\",\n\"test\": \"jest\"\n\x7d\n\x7d"

/-- A document whose scripts section sits inside another unclosed mapping:
the nearest enclosing unclosed mapping of line 1 is `"scripts"`, but the
outer `"a"` mapping is also still unclosed at the cursor. -/
def nestedCursorDoc : String := "\x7b\"a\": \x7b\"scripts\": \x7b\n\"lint\": \"eslint .\""

/-- A document whose only unclosed mapping before line 1 is `"scripts"`. -/
def openScriptsDoc : String := "\x7b\"scripts\": \x7b\n\"lint\": \"eslint .\""

/-- A package document holding a deeply nested array next to its scripts
section, exercising the parser on nesting far deeper than one fuel unit per
character of the old budget would allow. -/
def nestedArrayDocText : String :=
  "\x7b\n\"scripts\": \x7b\n\"build\": \"tsc -p .\"\n\x7d,\n\"x\": [[[[[[[[[[[[0]]]]]]]]]]]]\n\x7d"

/-- A host on which every fallible call fails: the registry is empty, every
command invocation raises, the debug extension is absent, and no terminal is
active. -/
def hostAllFail : Host :=
  { availableCommands := []
    execSucceeds := fun _ => false
    extensionPresent := false
    extensionActive := false
    activateSucceeds := false
    activeTerminal := none }

/-- A host on which the official debug-terminal command is registered and
every call succeeds, with an active terminal. -/
def hostAllOk : Host :=
  { availableCommands := [officialJsDebugCommand]
    execSucceeds := fun _ => true
    extensionPresent := true
    extensionActive := true
    activateSucceeds := true
    activeTerminal := some "JavaScript Debug Terminal" }

/-- A resolver environment with nothing to resolve from. -/
def envEmpty : ResolverEnv :=
  { statResult := fun _ => .error "ENOENT"
    activeTextEditorUri := none
    workspaceFolders := [] }

/-- A resolver environment whose stat capability reports every locator to be
a directory, with one workspace folder open. -/
def envDirStat : ResolverEnv :=
  { statResult := fun _ => .ok ⟨FileTypeDirectory⟩
    activeTextEditorUri := none
    workspaceFolders := [⟨"file", "/workspace"⟩] }

/-- A resolver environment whose stat capability reports every locator to be
a plain file. -/
def envFileStat : ResolverEnv :=
  { statResult := fun _ => .ok ⟨1⟩
    activeTextEditorUri := some ⟨"file", "/workspace/src/app.ts"⟩
    workspaceFolders := [] }

end DebugTerminal

namespace DebugTerminal

/-! ## Helper lemmas -/

theorem head?_dropWhile_not (q : Char → Bool) :
    ∀ (l : List Char) (c : Char), (l.dropWhile q).head? = some c → q c = false := by
  intro l
  induction l with
  | nil => intro c h; simp [List.dropWhile] at h
  | cons a t ih =>
    intro c h
    by_cases hq : q a
    · rw [List.dropWhile_cons_of_pos hq] at h
      exact ih c h
    · rw [List.dropWhile_cons_of_neg hq] at h
      simp at h
      subst h
      simpa using hq

theorem mk_eq_empty_iff (l : List Char) : String.mk l = "" ↔ l = [] := by
  constructor <;> intro h <;> simp_all [String.ext_iff]

/-! ## C9: native-hover suppression -/

/-- C9: the hover-suppression procedure writes `npm.scriptHover` exactly when
the extension option reads true and the host setting is not already `false`;
when it does not write, the configuration is unchanged; and running the
procedure again after any run performs no write and changes nothing. -/
theorem hoverSuppression_idempotent_write_gate (cfg : HoverConfig) :
    ((applyNpmScriptHoverSetting cfg).2 = true ↔
       getDisableNativeHover cfg = true ∧ cfg.npmScriptHover ≠ some false) ∧
    ((applyNpmScriptHoverSetting cfg).2 = false →
       (applyNpmScriptHoverSetting cfg).1 = cfg) ∧
    applyNpmScriptHoverSetting (applyNpmScriptHoverSetting cfg).1 =
      ((applyNpmScriptHoverSetting cfg).1, false) := by
  unfold applyNpmScriptHoverSetting
  by_cases h1 : getDisableNativeHover cfg <;>
    by_cases h2 : cfg.npmScriptHover = some false <;>
      simp_all [getDisableNativeHover]

/-- Witness for C9 at a concrete configuration (option set, host setting
unset): the write fires. -/
theorem hoverSuppression_witness :
    (applyNpmScriptHoverSetting ⟨some true, none⟩).2 = true :=
  (hoverSuppression_idempotent_write_gate ⟨some true, none⟩).1.mpr
    ⟨rfl, by decide⟩

/-! ## C2: resolver priority order -/

/-- C2: the resolver's rules in strict priority order — a stat-directory
context is returned unchanged; a stat-file context is replaced by its parent;
with no context the active document's parent is used; with no context and no
active editor the first workspace folder is used; with none of these it fails
with the no-target error. -/
theorem resolver_priority_order (env : ResolverEnv) :
    (∀ uri st, env.statResult uri = .ok st → st.ftype &&& FileTypeDirectory ≠ 0 →
       determineTargetDirectory env (some uri) = .ok uri) ∧
    (∀ uri st, env.statResult uri = .ok st → st.ftype &&& FileTypeDirectory = 0 →
       determineTargetDirectory env (some uri) = .ok (getParentDirectoryUri uri)) ∧
    (∀ docUri, env.activeTextEditorUri = some docUri →
       determineTargetDirectory env none = .ok (getParentDirectoryUri docUri)) ∧
    (env.activeTextEditorUri = none → ∀ w ws, env.workspaceFolders = w :: ws →
       determineTargetDirectory env none = .ok w) ∧
    (env.activeTextEditorUri = none → env.workspaceFolders = [] →
       determineTargetDirectory env none = .error noTargetErrorMessage) := by
  refine ⟨?_, ?_, ?_, ?_, ?_⟩
  · intro uri st hstat hdir
    simp [determineTargetDirectory, hstat, hdir]
  · intro uri st hstat hfile
    simp [determineTargetDirectory, hstat, hfile]
  · intro docUri hact
    simp [determineTargetDirectory, hact]
  · intro hact w ws hws
    simp [determineTargetDirectory, hact, hws]
  · intro hact hws
    simp [determineTargetDirectory, hact, hws]

/-- Witness for C2 at concrete environments: a directory context is returned
unchanged, and the empty environment fails with the no-target error. -/
theorem resolver_priority_witness :
    determineTargetDirectory envDirStat (some ⟨"file", "/proj"⟩) = .ok ⟨"file", "/proj"⟩ ∧
    determineTargetDirectory envEmpty none = .error noTargetErrorMessage :=
  ⟨(resolver_priority_order envDirStat).1 ⟨"file", "/proj"⟩ ⟨FileTypeDirectory⟩ rfl (by decide),
   (resolver_priority_order envEmpty).2.2.2.2 rfl rfl⟩

/-! ## C8: every resolved value has a vouched-for provenance -/

/-- C8: every directory the resolver returns is either a context locator that
stat reported to be a directory, the parent derived from a file locator (the
context or the active document), or the first open workspace folder; when
none of these can be produced, resolution fails instead. -/
theorem resolver_result_provenance (env : ResolverEnv) (ctx : Option Uri) (d : Uri)
    (h : determineTargetDirectory env ctx = .ok d) :
    (∃ st, ctx = some d ∧ env.statResult d = .ok st ∧
       st.ftype &&& FileTypeDirectory ≠ 0) ∨
    (∃ u st, ctx = some u ∧ env.statResult u = .ok st ∧
       st.ftype &&& FileTypeDirectory = 0 ∧ d = getParentDirectoryUri u) ∨
    (ctx = none ∧ ∃ doc, env.activeTextEditorUri = some doc ∧
       d = getParentDirectoryUri doc) ∨
    (ctx = none ∧ env.activeTextEditorUri = none ∧
       env.workspaceFolders.head? = some d) := by
  rcases ctx with _ | uri
  · rcases hact : env.activeTextEditorUri with _ | doc
    · rcases hws : env.workspaceFolders with _ | ⟨w, ws⟩
      · simp [determineTargetDirectory, hact, hws] at h
      · simp [determineTargetDirectory, hact, hws] at h
        right; right; right
        exact ⟨rfl, rfl, by simp [hws, h]⟩
    · simp [determineTargetDirectory, hact] at h
      right; right; left
      exact ⟨rfl, doc, rfl, h.symm⟩
  · rcases hstat : env.statResult uri with e | st
    · simp [determineTargetDirectory, hstat] at h
    · by_cases hdir : st.ftype &&& FileTypeDirectory ≠ 0
      · simp [determineTargetDirectory, hstat, hdir] at h
        left
        exact ⟨st, by rw [h], by rw [← h]; exact hstat, hdir⟩
      · simp [determineTargetDirectory, hstat, hdir] at h
        right; left
        exact ⟨uri, st, rfl, hstat, by simpa using hdir, h.symm⟩

/-- Witness for C8: the file-stat environment resolves a context file to its
parent, and the provenance disjunction holds there. -/
theorem resolver_result_provenance_witness :
    (∃ st, (some (Uri.mk "file" "/proj/package.json")) = some (Uri.mk "file" "/proj") ∧
       envFileStat.statResult ⟨"file", "/proj"⟩ = .ok st ∧
       st.ftype &&& FileTypeDirectory ≠ 0) ∨
    (∃ u st, (some (Uri.mk "file" "/proj/package.json")) = some u ∧
       envFileStat.statResult u = .ok st ∧
       st.ftype &&& FileTypeDirectory = 0 ∧
       Uri.mk "file" "/proj" = getParentDirectoryUri u) ∨
    ((some (Uri.mk "file" "/proj/package.json") : Option Uri) = none ∧
       ∃ doc, envFileStat.activeTextEditorUri = some doc ∧
         Uri.mk "file" "/proj" = getParentDirectoryUri doc) ∨
    ((some (Uri.mk "file" "/proj/package.json") : Option Uri) = none ∧
       envFileStat.activeTextEditorUri = none ∧
       envFileStat.workspaceFolders.head? = some ⟨"file", "/proj"⟩) :=
  resolver_result_provenance envFileStat (some ⟨"file", "/proj/package.json"⟩)
    ⟨"file", "/proj"⟩ rfl

/-! ## C10: the root is a fixed point for non-local schemes -/

/-- C10: for a non-`file` locator whose path is the root `"/"` (or anything
that normalizes to empty after stripping trailing separators), one
application of the parent derivation yields the same-scheme root locator,
and every further application stays there. -/
theorem parentUri_root_fixed_point (u : Uri) (hscheme : u.scheme ≠ "file")
    (hroot : stripTrailingSlashes u.path = "") (k : Nat) :
    getParentDirectoryUri^[k + 1] u = ⟨u.scheme, "/"⟩ := by
  have hfix : ∀ s : String, s ≠ "file" →
      getParentDirectoryUri ⟨s, "/"⟩ = ⟨s, "/"⟩ := by
    intro s hs
    simp only [getParentDirectoryUri]
    rw [if_neg hs]
    rfl
  have base : getParentDirectoryUri u = ⟨u.scheme, "/"⟩ := by
    simp only [getParentDirectoryUri]
    rw [if_neg hscheme]
    simp only [genericParentPath, hroot]
    rfl
  induction k with
  | zero => simpa using base
  | succ n ih =>
    rw [Function.iterate_succ_apply', ih, hfix u.scheme hscheme]

/-- Witness for C10: two applications on a concrete remote root locator. -/
theorem parentUri_root_fixed_point_witness :
    getParentDirectoryUri^[2] (Uri.mk "vscode-remote" "/") =
      Uri.mk "vscode-remote" "/" :=
  parentUri_root_fixed_point ⟨"vscode-remote", "/"⟩ (by decide) (by decide) 1

/-! ## Acquisition-chain trace lemmas -/

theorem completionKind_executed (cmd : String) (p : Option String) (cwd : Option String) :
    completionKind (.executedCommand cmd p cwd) =
      if cmd = officialJsDebugCommand then some .officialCommand
      else if cmd = newWithProfileCommand then some .profileCommand
      else none := rfl

theorem completionKind_official (p : Option String) (cwd : Option String) :
    completionKind (.executedCommand officialJsDebugCommand p cwd) =
      some .officialCommand := by
  rw [completionKind_executed, if_pos rfl]

theorem completionKind_profile (p : Option String) (cwd : Option String) :
    completionKind (.executedCommand newWithProfileCommand p cwd) =
      some .profileCommand := by
  rw [completionKind_executed, if_neg (by decide), if_pos rfl]

theorem completionKind_showProfiles (p : Option String) (cwd : Option String) :
    completionKind (.executedCommand showProfilesCommand p cwd) = none := by
  rw [completionKind_executed, if_neg (by decide), if_neg (by decide)]

theorem sentTexts_append (a b : List Effect) :
    sentTexts (a ++ b) = sentTexts a ++ sentTexts b :=
  List.filterMap_append a b _

theorem infoMessages_append (a b : List Effect) :
    infoMessages (a ++ b) = infoMessages a ++ infoMessages b :=
  List.filterMap_append a b _

theorem sentTexts_executed (cmd : String) (p : Option String) (cwd : Option String) :
    sentTexts [.executedCommand cmd p cwd] = [] := rfl

theorem infoMessages_executed (cmd : String) (p : Option String) (cwd : Option String) :
    infoMessages [.executedCommand cmd p cwd] = [] := rfl

theorem filterMap_completionKind_preStep (h : Host) :
    (preStepEffects h).filterMap completionKind = [] := by
  unfold preStepEffects execCommandEffects
  cases h1 : h.execSucceeds showProfilesCommand <;>
    cases h2 : h.extensionPresent && !h.extensionActive <;>
      cases h3 : h.activateSucceeds <;>
        simp only [h1, h2, h3] <;> decide

theorem sentTexts_preStep (h : Host) : sentTexts (preStepEffects h) = [] := by
  unfold preStepEffects execCommandEffects
  by_cases h1 : h.execSucceeds showProfilesCommand <;>
    by_cases h2 : h.extensionPresent && !h.extensionActive <;>
      by_cases h3 : h.activateSucceeds <;>
        simp [h1, h2, h3, sentTexts]

theorem infoMessages_preStep (h : Host) : infoMessages (preStepEffects h) = [] := by
  unfold preStepEffects execCommandEffects
  by_cases h1 : h.execSucceeds showProfilesCommand <;>
    by_cases h2 : h.extensionPresent && !h.extensionActive <;>
      by_cases h3 : h.activateSucceeds <;>
        simp [h1, h2, h3, infoMessages]

/-- The acquisition chain, written out by cases over the host: tier 1 runs
exactly when the official command is listed and succeeds, tier 2 exactly when
tier 1 fell through and the profile command succeeds, tier 3 otherwise. -/
theorem openJsDebug_eq (h : Host) (cwdUri : Option Uri) (command : Option String) :
    openJsDebugTerminalWithCwd h cwdUri command =
      if h.availableCommands.contains officialJsDebugCommand &&
          h.execSucceeds officialJsDebugCommand then
        (.officialCommand, preStepEffects h ++
          [.executedCommand officialJsDebugCommand none (cwdUri.map Uri.fsPath)])
      else if h.execSucceeds newWithProfileCommand then
        (.profileCommand, preStepEffects h ++
          [.executedCommand newWithProfileCommand (some "JavaScript Debug Terminal")
             (cwdUri.map Uri.fsPath)])
      else (.fallbackTerminal, preStepEffects h ++ tier3Effects cwdUri command) := by
  unfold openJsDebugTerminalWithCwd tier1Effects tier2Effects execCommandEffects
  cases h1 : h.availableCommands.contains officialJsDebugCommand <;>
    cases h2 : h.execSucceeds officialJsDebugCommand <;>
      cases h3 : h.execSucceeds newWithProfileCommand <;>
        simp only [h1, h2, h3] <;> simp

theorem sentTexts_tier3 (cwdUri : Option Uri) (command : Option String) :
    sentTexts (tier3Effects cwdUri command) = command.toList := by
  rcases command with _ | c <;> simp [tier3Effects, sentTexts, Option.toList]

theorem infoMessages_tier3 (cwdUri : Option Uri) (command : Option String) :
    infoMessages (tier3Effects cwdUri command) = [fallbackInfoMessage] := by
  rcases command with _ | c <;> simp [tier3Effects, infoMessages]

theorem filterMap_completionKind_tier3 (cwdUri : Option Uri) (command : Option String) :
    (tier3Effects cwdUri command).filterMap completionKind = [.fallbackTerminal] := by
  rcases command with _ | c <;> simp [tier3Effects, completionKind]

/-- The texts an acquisition run submits: exactly the supplied command when
the fallback tier completed, nothing otherwise. -/
theorem sentTexts_openJsDebug (h : Host) (cwdUri : Option Uri) (command : Option String) :
    sentTexts (openJsDebugTerminalWithCwd h cwdUri command).2 =
      if (openJsDebugTerminalWithCwd h cwdUri command).1 = .fallbackTerminal then
        command.toList
      else [] := by
  rw [openJsDebug_eq]
  cases h1 : (h.availableCommands.contains officialJsDebugCommand &&
      h.execSucceeds officialJsDebugCommand) <;>
    cases h2 : h.execSucceeds newWithProfileCommand <;>
      simp [sentTexts_append, sentTexts_preStep, sentTexts_tier3, sentTexts_executed]

/-! ## C1: exactly one completion path, no outward error -/

/-- C1: the acquisition chain is a total function of the host state (raised
host errors in tiers 1-2 are caught and only cause fall-through), and on
every host exactly one of the three completion effects — official command
executed, profile command executed, fallback terminal created — occurs in
its trace, namely the one its outcome reports. -/
theorem acquisition_exactly_one_completion (h : Host) (cwdUri : Option Uri)
    (command : Option String) :
    ((openJsDebugTerminalWithCwd h cwdUri command).2).filterMap completionKind =
      [(openJsDebugTerminalWithCwd h cwdUri command).1] := by
  rw [openJsDebug_eq]
  cases h1 : (h.availableCommands.contains officialJsDebugCommand &&
      h.execSucceeds officialJsDebugCommand) <;>
    cases h2 : h.execSucceeds newWithProfileCommand <;>
      simp [List.filterMap_append, filterMap_completionKind_preStep,
        filterMap_completionKind_tier3, completionKind_official, completionKind_profile]

/-! ## C4: the command string reaches a terminal only in the fallback tier -/

/-- C4: with a command supplied, the acquisition chain submits it if and only
if the fallback tier completed, in which case the informational notice is
also shown; when tier 1 or tier 2 completed, no text is submitted to any
terminal. -/
theorem command_sent_only_in_fallback (h : Host) (cwdUri : Option Uri) (c : String) :
    ((openJsDebugTerminalWithCwd h cwdUri (some c)).1 = .fallbackTerminal →
       sentTexts (openJsDebugTerminalWithCwd h cwdUri (some c)).2 = [c] ∧
       infoMessages (openJsDebugTerminalWithCwd h cwdUri (some c)).2 =
         [fallbackInfoMessage]) ∧
    ((openJsDebugTerminalWithCwd h cwdUri (some c)).1 ≠ .fallbackTerminal →
       sentTexts (openJsDebugTerminalWithCwd h cwdUri (some c)).2 = []) := by
  have hsent := sentTexts_openJsDebug h cwdUri (some c)
  have hinfo : (openJsDebugTerminalWithCwd h cwdUri (some c)).1 = .fallbackTerminal →
      infoMessages (openJsDebugTerminalWithCwd h cwdUri (some c)).2 =
        [fallbackInfoMessage] := by
    rw [openJsDebug_eq]
    cases h1 : (h.availableCommands.contains officialJsDebugCommand &&
        h.execSucceeds officialJsDebugCommand) <;>
      cases h2 : h.execSucceeds newWithProfileCommand <;>
        simp [infoMessages_append, infoMessages_preStep, infoMessages_tier3,
          infoMessages_executed]
  refine ⟨fun hfb => ⟨?_, hinfo hfb⟩, fun hnot => by rw [hsent, if_neg hnot]⟩
  rw [hsent, if_pos hfb]
  rfl

/-- Witness for C4 on concrete hosts: on the all-failing host the fallback
tier submits the command and shows the notice; on the all-succeeding host
nothing is submitted. -/
theorem command_sent_only_in_fallback_witness :
    (sentTexts (openJsDebugTerminalWithCwd hostAllFail none (some "npm run build")).2 =
       ["npm run build"] ∧
     infoMessages (openJsDebugTerminalWithCwd hostAllFail none (some "npm run build")).2 =
       [fallbackInfoMessage]) ∧
    sentTexts (openJsDebugTerminalWithCwd hostAllOk none (some "npm run build")).2 = [] :=
  ⟨(command_sent_only_in_fallback hostAllFail none "npm run build").1 rfl,
   (command_sent_only_in_fallback hostAllOk none "npm run build").2 (by decide)⟩

/-! ## C7: run-named-script -/

/-- C7: with debug-flag true the handler runs the acquisition chain on the
document's parent directory with no command and then submits exactly
`npm run <name>` to the active terminal (so, when one exists, that string is
the only text submitted in the whole run); with debug-flag false it instead
creates a plain terminal named after the script in that directory, shows it
and submits the same string, executing no host command at all — the debug
tiers are bypassed. -/
theorem runNamedScript_command_text (h : Host) (docUri : Uri) (name cmd : String) :
    (runNpmScriptByName h docUri name cmd true =
       (openJsDebugTerminalWithCwd h (some (getParentDirectoryUri docUri)) none).2
       ++ (match h.activeTerminal with
           | some _ => [.sentText ("npm run " ++ name)]
           | none => [])) ∧
    (h.activeTerminal.isSome →
       sentTexts (runNpmScriptByName h docUri name cmd true) = ["npm run " ++ name]) ∧
    (runNpmScriptByName h docUri name cmd false =
       [.createdTerminal ("npm: " ++ name)
          (.fsPath (getParentDirectoryUri docUri).fsPath),
        .terminalShown, .sentText ("npm run " ++ name)]) ∧
    executedCommands (runNpmScriptByName h docUri name cmd false) = [] := by
  refine ⟨by simp [runNpmScriptByName], ?_, by simp [runNpmScriptByName], ?_⟩
  · intro hterm
    rcases hat : h.activeTerminal with _ | t
    · rw [hat] at hterm; simp at hterm
    · have hsent := sentTexts_openJsDebug h (some (getParentDirectoryUri docUri)) none
      simp [runNpmScriptByName, hat, sentTexts, List.filterMap_append]
      have : sentTexts (openJsDebugTerminalWithCwd h
          (some (getParentDirectoryUri docUri)) none).2 = [] := by
        rw [hsent]
        rcases (openJsDebugTerminalWithCwd h (some (getParentDirectoryUri docUri)) none).1 <;>
          simp [Option.toList]
      simpa [sentTexts] using this
  · simp [runNpmScriptByName, executedCommands]

/-- Witness for C7 at a concrete host with an active terminal. -/
theorem runNamedScript_command_text_witness :
    sentTexts (runNpmScriptByName hostAllOk ⟨"file", "/proj/package.json"⟩
      "build" "tsc -p ." true) = ["npm run build"] :=
  (runNamedScript_command_text hostAllOk ⟨"file", "/proj/package.json"⟩
    "build" "tsc -p .").2.1 rfl

/-! ## C3: generic parent-path derivation -/

theorem stripTrailingSlashes_data (p : String) :
    (stripTrailingSlashes p).data.reverse = p.data.reverse.dropWhile isSlashChar := by
  show ((p.data.reverse.dropWhile isSlashChar).reverse).reverse = _
  rw [List.reverse_reverse]

theorem removeTrailingSegment_of_not_mem (p : String) (h : '/' ∉ p.data) :
    removeTrailingSegment p = p := by
  unfold removeTrailingSegment
  have hrest : p.data.reverse.dropWhile notSlashChar = [] := by
    rw [List.dropWhile_eq_nil_iff]
    intro x hx
    have hxm : x ∈ p.data := by simpa using hx
    have hxne : x ≠ '/' := fun he => h (he ▸ hxm)
    simp [notSlashChar, isSlashChar, hxne]
  rw [if_neg]
  intro hcond
  rw [hrest] at hcond
  simp at hcond

theorem removeTrailingSegment_of_mem (p : String) (h1 : '/' ∈ p.data)
    (h2 : ∀ c, p.data.reverse.head? = some c → c ≠ '/') :
    removeTrailingSegment p =
      String.mk (p.data.reverse.dropWhile notSlashChar).tail.reverse := by
  unfold removeTrailingSegment
  have hr1 : '/' ∈ p.data.reverse := by simpa using h1
  have hrne : p.data.reverse ≠ [] := by
    intro hnil
    rw [hnil] at hr1
    simp at hr1
  obtain ⟨a, t, hat⟩ := List.exists_cons_of_ne_nil hrne
  have ha : a ≠ '/' := h2 a (by rw [hat]; rfl)
  have hseg : p.data.reverse.takeWhile notSlashChar ≠ [] := by
    rw [hat, List.takeWhile_cons_of_pos (by simp [notSlashChar, isSlashChar, ha])]
    simp
  have hrest : p.data.reverse.dropWhile notSlashChar ≠ [] := by
    intro hnil
    rw [List.dropWhile_eq_nil_iff] at hnil
    have := hnil '/' hr1
    simp [notSlashChar, isSlashChar] at this
  obtain ⟨b, u, hbu⟩ := List.exists_cons_of_ne_nil hrest
  have hb : b = '/' := by
    have := head?_dropWhile_not notSlashChar p.data.reverse b (by rw [hbu]; rfl)
    simpa [notSlashChar, isSlashChar] using this
  rw [if_pos ⟨hseg, by rw [hbu, hb]; rfl⟩]

theorem genericParentPath_eq_amendedParentPath (p : String) :
    genericParentPath p = amendedParentPath p := by
  by_cases hc : '/' ∈ (stripTrailingSlashes p).data
  · have hcb : (stripTrailingSlashes p).data.contains '/' = true := by
      simpa using hc
    have hlast : ∀ c, (stripTrailingSlashes p).data.reverse.head? = some c →
        c ≠ '/' := by
      intro c hcc
      rw [stripTrailingSlashes_data] at hcc
      have := head?_dropWhile_not isSlashChar p.data.reverse c hcc
      simpa [isSlashChar] using this
    have hr := removeTrailingSegment_of_mem (stripTrailingSlashes p) hc hlast
    unfold genericParentPath amendedParentPath claimParentPath
    rw [hr, hcb, if_pos rfl]
    by_cases ht : ((stripTrailingSlashes p).data.reverse.dropWhile notSlashChar).tail = []
    · rw [ht]
      simp
    · rw [if_neg (by rw [mk_eq_empty_iff, List.reverse_eq_nil_iff]; exact ht),
        if_neg (by simpa [List.isEmpty_iff] using ht)]
  · have hcb : (stripTrailingSlashes p).data.contains '/' = false := by
      simpa using hc
    have hr := removeTrailingSegment_of_not_mem (stripTrailingSlashes p) hc
    unfold genericParentPath amendedParentPath
    rw [hr, hcb, if_neg Bool.false_ne_true]
    by_cases he : (stripTrailingSlashes p).data = []
    · have hs : stripTrailingSlashes p = "" := String.ext he
      rw [hs]
      decide
    · have hs : stripTrailingSlashes p ≠ "" := fun h0 => he (String.ext_iff.mp h0)
      rw [if_neg hs, if_neg (by simpa [List.isEmpty_iff] using he)]

/-- Counterexample to C3 as stated: the untitled-document locator
`untitled:Untitled-1` has a non-`file` scheme and a path with no separator;
the claimed derivation (strip separators, remove exactly one trailing
segment, default to `"/"`) yields `"/"`, but the code leaves the path
unchanged because its segment-removal pattern requires a preceding
separator. -/
theorem parentPath_claim_counterexample :
    (Uri.mk "untitled" "Untitled-1").scheme ≠ "file" ∧
    claimParentPath (Uri.mk "untitled" "Untitled-1").path = "/" ∧
    getParentDirectoryUri (Uri.mk "untitled" "Untitled-1") =
      Uri.mk "untitled" "Untitled-1" := by
  refine ⟨by decide, by decide, by decide⟩

/-- C3 amended: for every non-`file` locator, the derivation strips all
trailing separators, then removes exactly one trailing path segment when the
normalized path contains a separator (yielding `"/"` when nothing remains),
returns the normalized path unchanged when it contains no separator and is
nonempty, yields `"/"` for the empty normalized path, and always preserves
the scheme. -/
theorem parentPath_amended (u : Uri) (h : u.scheme ≠ "file") :
    getParentDirectoryUri u = ⟨u.scheme, amendedParentPath u.path⟩ := by
  unfold getParentDirectoryUri
  rw [if_neg h, genericParentPath_eq_amendedParentPath]

/-- Witness for C3 (amended) at a concrete remote locator. -/
theorem parentPath_amended_witness :
    getParentDirectoryUri ⟨"vscode-remote", "/home/user/proj"⟩ =
      ⟨"vscode-remote", amendedParentPath "/home/user/proj"⟩ :=
  parentPath_amended ⟨"vscode-remote", "/home/user/proj"⟩ (by decide)

/-! ## C5: the script line scanner -/

/-- C5: the scanner is a total function; on the example document (one key
per line) it yields exactly the two declarations, in source order, on
consecutive lines 2 and 3; a document that does not parse yields the empty
sequence; and a parsed document without a `scripts` key yields the empty
sequence. -/
theorem scanner_example_and_empty :
    scanDeclarations exampleDocText =
      [⟨"build", "tsc -p .", 2⟩, ⟨"test", "jest", 3⟩] ∧
    (∀ text, parseJson text = none → scanDeclarations text = []) ∧
    (∀ text pkg, parseJson text = some pkg → jsonLookup pkg "scripts" = none →
       scanDeclarations text = []) := by
  refine ⟨by decide, ?_, ?_⟩
  · intro t h
    simp [scanDeclarations, h]
  · intro t pkg h1 h2
    simp [scanDeclarations, h1, h2]

/-- The parser accepts nested arrays (each `[` spends three fuel units but
consumes one character, so the budget must exceed three per character). -/
theorem parseJson_nested_arrays :
    (parseJson "[[0]]").isSome = true ∧
    (parseJson "[[[[[[[[[[[[[[[[[[[[0]]]]]]]]]]]]]]]]]]]]").isSome = true := by
  exact ⟨rfl, rfl⟩

/-- A package document with a deeply nested array still passes the
structural gate and yields its script declaration. -/
theorem scanDeclarations_nested_example :
    scanDeclarations nestedArrayDocText = [⟨"build", "tsc -p .", 2⟩] := by
  decide

/-- Witness for C5 at concrete documents: an unparseable document and a
parseable one with no `scripts` key both scan to the empty sequence. -/
theorem scanner_example_and_empty_witness :
    scanDeclarations "not json at all" = [] ∧
    scanDeclarations "\x7b\"name\": \"x\"\x7d" = [] :=
  ⟨scanner_example_and_empty.2.1 "not json at all" rfl,
   scanner_example_and_empty.2.2 "\x7b\"name\": \"x\"\x7d"
     (Json.obj [("name", Json.str "x")]) rfl rfl⟩

/-! ## C6: cursor-based script lookup -/

theorem findSectionKey_eq_firstUnclosedKey (l : List Char) :
    findSectionKey l = firstUnclosedKey l := by
  induction l with
  | nil => rfl
  | cons c cs ih =>
    unfold firstUnclosedKey
    rw [List.length_cons, List.range_succ_eq_map, List.findSome?_cons]
    have hcomp : headerKeyAt (c :: cs) ∘ Nat.succ = headerKeyAt cs := by
      funext i
      rfl
    have hmap : ((List.range cs.length).map Nat.succ).findSome? (headerKeyAt (c :: cs)) =
        (List.range cs.length).findSome? (headerKeyAt cs) := by
      rw [List.findSome?_map, hcomp]
    have ih2 : findSectionKey cs = (List.range cs.length).findSome? (headerKeyAt cs) := ih
    rw [hmap, ← ih2]
    rw [findSectionKey]
    cases hm : matchSectionHeaderAt (c :: cs) with
    | none => simp [headerKeyAt, hm]
    | some kr =>
      obtain ⟨k, rest⟩ := kr
      by_cases hb : '}' ∈ rest
      · simp [headerKeyAt, hm, hb]
      · simp [headerKeyAt, hm, hb]

/-- Counterexample to C6 as stated: on `nestedCursorDoc` the cursor line
matches the script-entry shape and the nearest enclosing unclosed mapping
found by a backward scan is `"scripts"`, yet the code reports the
not-in-scripts-section error, because its heuristic regex takes the leftmost
(outermost) unclosed mapping key, here `"a"`. -/
theorem scriptAtCursor_claim_counterexample :
    matchScriptEntry (lineTextAt nestedCursorDoc 1) = some ("lint", "eslint .") ∧
    nearestUnclosedKey (nestedCursorDoc.data.take (offsetOfPos nestedCursorDoc 1 0)) =
      some "scripts" ∧
    scriptAtCursor nestedCursorDoc 1 0 = .error .notInScriptsSection :=
  ⟨rfl, rfl, rfl⟩

/-- C6 amended: the lookup fails with the not-a-script-line error exactly on
cursor lines that do not match the script-entry shape; on a matching line it
returns the captures when the first (outermost) unclosed mapping key before
the cursor is `"scripts"`, and fails with the not-in-scripts-section error
when that key is any other key or when there is none. -/
theorem scriptAtCursor_amended (text : String) (line col : Nat) :
    (matchScriptEntry (lineTextAt text line) = none →
       scriptAtCursor text line col = .error .notAScriptLine) ∧
    (∀ name cmd, matchScriptEntry (lineTextAt text line) = some (name, cmd) →
       ((firstUnclosedKey (text.data.take (offsetOfPos text line col)) = some "scripts" →
           scriptAtCursor text line col = .ok (name, cmd)) ∧
        (∀ k, firstUnclosedKey (text.data.take (offsetOfPos text line col)) = some k →
           k ≠ "scripts" → scriptAtCursor text line col = .error .notInScriptsSection) ∧
        (firstUnclosedKey (text.data.take (offsetOfPos text line col)) = none →
           scriptAtCursor text line col = .error .notInScriptsSection))) := by
  refine ⟨?_, ?_⟩
  · intro h
    simp [scriptAtCursor, h]
  · intro name cmd hm
    refine ⟨?_, ?_, ?_⟩
    · intro hk
      rw [← findSectionKey_eq_firstUnclosedKey] at hk
      simp [scriptAtCursor, hm, hk]
    · intro k hk hne
      rw [← findSectionKey_eq_firstUnclosedKey] at hk
      simp [scriptAtCursor, hm, hk, hne]
    · intro hk
      rw [← findSectionKey_eq_firstUnclosedKey] at hk
      simp [scriptAtCursor, hm, hk]

/-- Witness for C6 (amended): the flat open-scripts document succeeds at the
cursor, and a dependencies-shaped document fails with the section error. -/
theorem scriptAtCursor_amended_witness :
    scriptAtCursor openScriptsDoc 1 0 = .ok ("lint", "eslint .") ∧
    scriptAtCursor "\x7b\"dependencies\": \x7b\n\"lint\": \"eslint .\"" 1 0 =
      .error .notInScriptsSection :=
  ⟨((scriptAtCursor_amended openScriptsDoc 1 0).2 "lint" "eslint ." rfl).1 rfl,
   (((scriptAtCursor_amended "\x7b\"dependencies\": \x7b\n\"lint\": \"eslint .\"" 1 0).2
       "lint" "eslint ." rfl).2.1) "dependencies" rfl (by decide)⟩

end DebugTerminal
